import Mathlib

/-!
# Verification of the tradebot order pipeline

A shallow embedding, in Lean 4, of the core request pipeline of the
`tradebot` repository (files `src/bot/validators.py`, `src/bot/client.py`,
`src/bot/orders.py`), together with theorems settling the specification
claims about it.

Conventions of the embedding:
* Python strings are Lean `String`s; the Python methods `strip`, `upper`,
  `isalpha`, `endswith` and slicing are modelled over the character list
  (ASCII semantics, which covers every string the program manipulates).
* Python numbers (`int`/`float`) are modelled as `Int`/`Rat`.
* JSON values are the inductive `Json`; Python `dict`s of request
  parameters are insertion-ordered association lists.
* Exceptions are values of the inductive `Err`; fallible code returns
  `Except Err _`.  Each `Err` constructor corresponds to one `raise` site
  (or one library exception class) of the source.
* Wall-clock time and the network are passed in explicitly: the signer
  receives the timestamp as an argument, and the transport layer receives
  the outcome of each network attempt as a function from attempt number
  to outcome.
-/

/-! ## Model of the Python string methods used by the source -/

/-- Python `str.strip()`: drop leading and trailing whitespace. -/
def pyStrip (s : String) : String :=
  ⟨((s.data.dropWhile Char.isWhitespace).reverse.dropWhile Char.isWhitespace).reverse⟩

/-- Python `str.upper()` (ASCII). -/
def pyUpper (s : String) : String := ⟨s.data.map Char.toUpper⟩

/-- Python `str.isalpha()`: non-empty and every character alphabetic. -/
def pyIsAlpha (s : String) : Bool := !s.data.isEmpty && s.data.all Char.isAlpha

/-- Python `str.endswith(suffix)`. -/
def pyEndsWith (s suffix : String) : Bool :=
  List.isPrefixOf suffix.data.reverse s.data.reverse

/-- Python `s[:n]`: the first `n` characters of `s`. -/
def pyTake (s : String) (n : Nat) : String := ⟨s.data.take n⟩

/-! ## JSON values and exception values -/

/-- A decoded JSON document (the possible results of `resp.json()`). -/
inductive Json : Type where
  | null : Json
  | bool (b : Bool) : Json
  | num (q : Rat) : Json
  | str (s : String) : Json
  | arr (elems : List Json) : Json
  | obj (entries : List (String × Json)) : Json

/-- `Json.isObj` holds exactly on mapping (Python `dict`) bodies. -/
def Json.isObj : Json → Bool
  | .obj _ => true
  | _ => false

/-- Exception values.  One constructor per `raise` site of the source
(validators carry the dynamic data interpolated into the message) plus the
library exceptions the source can raise or leave unhandled. -/
inductive Err : Type where
  | symbolEmpty : Err
  | symbolNotAlpha (symbol : String) : Err
  | symbolNotUsdt (symbol : String) : Err
  | symbolTooShort (symbol : String) : Err
  | sideEmpty : Err
  | sideInvalid (side : String) : Err
  | orderTypeEmpty : Err
  | orderTypeInvalid (orderType : String) : Err
  | quantityNotNumber : Err
  | quantityNotPositive (quantity : Rat) : Err
  | priceRequired : Err
  | priceNotNumber : Err
  | priceNotPositive (price : Rat) : Err
  | binanceApiError (statusCode : Nat) (code : Json) (msg : Json) : Err
  | httpError (status : Nat) : Err
  | connectionError (id : Nat) : Err
  | timeoutError (id : Nat) : Err
  | otherError (id : Nat) : Err
  | attributeError : Err
  | typeError : Err

/-! ## Validators (`src/bot/validators.py`) -/

/-- `validateSymbol` (validators.py lines 11-29).  The input is a Python
string, so the `isinstance` guard is always satisfied; `not symbol` is true
exactly on the empty string. -/
def validateSymbol (symbol : String) : Except Err String :=
  if symbol = "" then .error .symbolEmpty
  else
    let symbol := pyUpper (pyStrip symbol)
    if !pyIsAlpha symbol then .error (.symbolNotAlpha symbol)
    else if !pyEndsWith symbol "USDT" then .error (.symbolNotUsdt symbol)
    else if symbol.data.length < 5 then .error (.symbolTooShort symbol)
    else .ok symbol

/-- `validateSide` (validators.py lines 32-42). -/
def validateSide (side : String) : Except Err String :=
  if side = "" then .error .sideEmpty
  else
    let side := pyUpper (pyStrip side)
    if side = "BUY" ∨ side = "SELL" then .ok side
    else .error (.sideInvalid side)

/-- `validateOrderType` (validators.py lines 45-57). -/
def validateOrderType (orderType : String) : Except Err String :=
  if orderType = "" then .error .orderTypeEmpty
  else
    let orderType := pyUpper (pyStrip orderType)
    if orderType = "MARKET" ∨ orderType = "LIMIT" then .ok orderType
    else .error (.orderTypeInvalid orderType)

/-- A raw Python value that may be passed where a number is expected. -/
inductive PyVal : Type where
  | vStr (s : String) : PyVal
  | vInt (n : Int) : PyVal
  | vNum (q : Rat) : PyVal
  | vNone : PyVal

/-- Digits of an unsigned decimal run, as a natural number. -/
def natOfDigits (cs : List Char) : Nat :=
  cs.foldl (fun a c => 10 * a + (c.toNat - 48)) 0

/-- Parse an unsigned decimal literal (`digits`, `digits.digits`,
`digits.` or `.digits`) as a rational. -/
def parseUnsignedDecimal (cs : List Char) : Option Rat :=
  let ip := cs.takeWhile Char.isDigit
  match cs.dropWhile Char.isDigit with
  | [] => if ip.isEmpty then none else some (natOfDigits ip)
  | '.' :: fp =>
    if fp.all Char.isDigit ∧ ¬(ip.isEmpty ∧ fp.isEmpty) then
      some ((natOfDigits ip : Rat) + (natOfDigits fp : Rat) / ((10 : Rat) ^ fp.length))
    else none
  | _ => none

/-- Model of Python `float(x)` on the values this program passes to it:
numbers convert to themselves, strings parse as (signed) decimal literals,
`None` raises.  `none` models the `TypeError`/`ValueError` a failed
conversion raises. -/
def pyFloat : PyVal → Option Rat
  | .vNum q => some q
  | .vInt n => some (n : Rat)
  | .vStr s =>
    match (pyStrip s).data with
    | '-' :: rest => (parseUnsignedDecimal rest).map (fun q => -q)
    | '+' :: rest => parseUnsignedDecimal rest
    | cs => parseUnsignedDecimal cs
  | .vNone => none

/-- `validateQuantity` (validators.py lines 60-71). -/
def validateQuantity (quantity : PyVal) : Except Err Rat :=
  match pyFloat quantity with
  | none => .error .quantityNotNumber
  | some q => if q ≤ 0 then .error (.quantityNotPositive q) else .ok q

/-- `validatePrice` (validators.py lines 74-91).  The `price` argument is
typed `float | None` in the source, so the inner `float(price)` conversion
always succeeds (the `priceNotNumber` branch of the source is unreachable
for such inputs and has no counterpart here). -/
def validatePrice (price : Option Rat) (orderType : String) : Except Err (Option Rat) :=
  if orderType = "LIMIT" then
    match price with
    | none => .error .priceRequired
    | some p => if p ≤ 0 then .error (.priceNotPositive p) else .ok (some p)
  else .ok none

/-! ## Request parameter dictionaries (Python `dict` with insertion order) -/

/-- A Python `dict` of request parameters: an association list in insertion
order. -/
abbrev ParamDict : Type := List (String × PyVal)

/-- Python `d[k] = v`: updating an existing key keeps its position,
assigning a fresh key appends it. -/
def dictSet (d : ParamDict) (k : String) (v : PyVal) : ParamDict :=
  if (List.any d fun kv => kv.1 == k) then
    List.map (fun kv => if kv.1 == k then (k, v) else kv) d
  else d ++ [(k, v)]

/-- Python `d.get(k)` as an `Option`. -/
def dictFind (d : ParamDict) (k : String) : Option PyVal :=
  (List.find? (fun kv => kv.1 == k) d).map (fun kv => kv.2)

/-! ## Model of `urllib.parse.urlencode` and the byte-level helpers -/

/-- Fractional decimal digits of `num/den` (with `num < den`), up to `fuel`
digits. -/
def fracDigits (num den : Nat) : Nat → List Char
  | 0 => []
  | fuel + 1 =>
    if num = 0 then []
    else
      Char.ofNat (48 + num * 10 / den) :: fracDigits (num * 10 % den) den fuel

/-- Model of Python `str(float)` for the finite-decimal rationals this
program manipulates: sign, integer part, a dot, and the fractional digits
(`"0"` when the value is integral, as in Python's `str(2.0) = "2.0"`). -/
def ratStr (q : Rat) : String :=
  let a := |q|
  let ds := fracDigits (a.num.toNat % a.den) a.den 30
  (if q < 0 then "-" else "") ++ toString (a.num.toNat / a.den) ++ "." ++
    (if ds.isEmpty then "0" else ⟨ds⟩)

/-- Python `str(v)` on the parameter values the program builds. -/
def pyStr : PyVal → String
  | .vStr s => s
  | .vInt n => toString n
  | .vNum q => ratStr q
  | .vNone => "None"

/-- UTF-8 encoding of one code point, as byte values. -/
def utf8Char (n : Nat) : List Nat :=
  if n < 128 then [n]
  else if n < 2048 then [192 + n / 64, 128 + n % 64]
  else if n < 65536 then [224 + n / 4096, 128 + n / 64 % 64, 128 + n % 64]
  else [240 + n / 262144, 128 + n / 4096 % 64, 128 + n / 64 % 64, 128 + n % 64]

/-- UTF-8 encoding of a string, as byte values (Python `s.encode("utf-8")`). -/
def utf8Bytes (s : String) : List Nat :=
  (s.data.map fun c => utf8Char c.toNat).flatten

/-- Characters `urllib.parse.quote_plus` leaves unescaped. -/
def isUrlSafe (c : Char) : Bool :=
  c.isAlphanum || c == '-' || c == '_' || c == '.' || c == '~'

/-- One uppercase hexadecimal digit. -/
def hexUpperDigit (n : Nat) : Char :=
  if n < 10 then Char.ofNat (48 + n) else Char.ofNat (55 + n)

/-- `%XX` percent-escape of one byte. -/
def percentByte (b : Nat) : List Char :=
  ['%', hexUpperDigit (b / 16 % 16), hexUpperDigit (b % 16)]

/-- Model of `urllib.parse.quote_plus`: spaces become `+`, safe characters
pass through, every other character is percent-escaped bytewise. -/
def quotePlus (s : String) : String :=
  ⟨(s.data.map fun c =>
      if c == ' ' then ['+']
      else if isUrlSafe c then [c]
      else ((utf8Char c.toNat).map percentByte).flatten).flatten⟩

/-- Model of `urllib.parse.urlencode` on an insertion-ordered mapping:
`key=value` pairs joined by `&`, in the mapping's order, with values
rendered by `str` and percent-encoded. -/
def urlencode (d : ParamDict) : String :=
  String.intercalate "&"
    (List.map (fun kv => quotePlus kv.1 ++ "=" ++ quotePlus (pyStr kv.2)) d)

/-! ## SHA-256 and HMAC-SHA256 (model of `hashlib.sha256` / `hmac`)

Implemented from FIPS 180-4 / RFC 2104 over byte values as `Nat`s, with
explicit reduction modulo `2 ^ 32`. -/

/-- Truncate to a 32-bit word. -/
def w32 (n : Nat) : Nat := n % 4294967296

/-- 32-bit right rotation. -/
def rotr32 (x n : Nat) : Nat := w32 ((x >>> n) ||| (x <<< (32 - n)))

/-- 32-bit complement. -/
def not32 (x : Nat) : Nat := x ^^^ 4294967295

/-- The SHA-256 `Ch` function. -/
def shaCh (x y z : Nat) : Nat := (x &&& y) ^^^ (not32 x &&& z)

/-- The SHA-256 `Maj` function. -/
def shaMaj (x y z : Nat) : Nat := (x &&& y) ^^^ (x &&& z) ^^^ (y &&& z)

/-- The SHA-256 Σ₀ function. -/
def bigSigma0 (x : Nat) : Nat := rotr32 x 2 ^^^ rotr32 x 13 ^^^ rotr32 x 22

/-- The SHA-256 Σ₁ function. -/
def bigSigma1 (x : Nat) : Nat := rotr32 x 6 ^^^ rotr32 x 11 ^^^ rotr32 x 25

/-- The SHA-256 σ₀ function. -/
def smallSigma0 (x : Nat) : Nat := rotr32 x 7 ^^^ rotr32 x 18 ^^^ (x >>> 3)

/-- The SHA-256 σ₁ function. -/
def smallSigma1 (x : Nat) : Nat := rotr32 x 17 ^^^ rotr32 x 19 ^^^ (x >>> 10)

/-- The SHA-256 round constants K₀..K₆₃. -/
def shaK : List Nat :=
  [1116352408, 1899447441, 3049323471, 3921009573, 961987163,
   1508970993, 2453635748, 2870763221, 3624381080, 310598401,
   607225278, 1426881987, 1925078388, 2162078206, 2614888103,
   3248222580, 3835390401, 4022224774, 264347078, 604807628,
   770255983, 1249150122, 1555081692, 1996064986, 2554220882,
   2821834349, 2952996808, 3210313671, 3336571891, 3584528711,
   113926993, 338241895, 666307205, 773529912, 1294757372,
   1396182291, 1695183700, 1986661051, 2177026350, 2456956037,
   2730485921, 2820302411, 3259730800, 3345764771, 3516065817,
   3600352804, 4094571909, 275423344, 430227734, 506948616,
   659060556, 883997877, 958139571, 1322822218, 1537002063,
   1747873779, 1955562222, 2024104815, 2227730452, 2361852424,
   2428436474, 2756734187, 3204031479, 3329325298]

/-- The eight SHA-256 working variables. -/
structure Sha8 where
  a : Nat
  b : Nat
  c : Nat
  d : Nat
  e : Nat
  f : Nat
  g : Nat
  h : Nat

/-- The SHA-256 initial hash value H⁽⁰⁾. -/
def shaInit : Sha8 :=
  ⟨1779033703, 3144134277, 1013904242, 2773480762,
   1359893119, 2600822924, 528734635, 1541459225⟩

/-- Big-endian 32-bit words from a list of bytes. -/
def bytesToWords : List Nat → List Nat
  | b0 :: b1 :: b2 :: b3 :: rest =>
    (b0 * 16777216 + b1 * 65536 + b2 * 256 + b3) :: bytesToWords rest
  | _ => []

/-- Extend the 16 message-schedule words by `n` further words
(W₁₆..W₆₃ for `n = 48`). -/
def extendSchedule (w : List Nat) : Nat → List Nat
  | 0 => w
  | n + 1 =>
    let len := w.length
    let next := w32 (smallSigma1 (w.getD (len - 2) 0) + w.getD (len - 7) 0 +
      smallSigma0 (w.getD (len - 15) 0) + w.getD (len - 16) 0)
    extendSchedule (w ++ [next]) n

/-- One SHA-256 round, consuming a `(Kₜ, Wₜ)` pair. -/
def shaRound (st : Sha8) (kw : Nat × Nat) : Sha8 :=
  let t1 := w32 (st.h + bigSigma1 st.e + shaCh st.e st.f st.g + kw.1 + kw.2)
  let t2 := w32 (bigSigma0 st.a + shaMaj st.a st.b st.c)
  ⟨w32 (t1 + t2), st.a, st.b, st.c, w32 (st.d + t1), st.e, st.f, st.g⟩

/-- Compress one 64-byte block into the running hash state. -/
def shaCompress (st : Sha8) (block : List Nat) : Sha8 :=
  let ws := extendSchedule (bytesToWords block) 48
  let r := List.foldl shaRound st (List.zip shaK ws)
  ⟨w32 (st.a + r.a), w32 (st.b + r.b), w32 (st.c + r.c), w32 (st.d + r.d),
   w32 (st.e + r.e), w32 (st.f + r.f), w32 (st.g + r.g), w32 (st.h + r.h)⟩

/-- SHA-256 padding: `0x80`, zeros to 56 mod 64, and the 64-bit big-endian
bit length. -/
def sha256Pad (msg : List Nat) : List Nat :=
  let L := msg.length
  let z := (64 + 56 - (L + 1) % 64) % 64
  let lenBytes := (List.range 8).map fun i => ((L * 8) >>> (8 * (7 - i))) % 256
  msg ++ [128] ++ List.replicate z 0 ++ lenBytes

/-- Split a byte list into 64-byte blocks. -/
def chunksOf64 : List Nat → List (List Nat)
  | [] => []
  | b :: rest => ((b :: rest).take 64) :: chunksOf64 ((b :: rest).drop 64)
termination_by l => l.length
decreasing_by simp [List.length_drop]; omega

/-- Big-endian bytes of one 32-bit word. -/
def wordBytes (w : Nat) : List Nat :=
  [(w >>> 24) % 256, (w >>> 16) % 256, (w >>> 8) % 256, w % 256]

/-- SHA-256 of a byte list, as the 32 digest bytes. -/
def sha256 (msg : List Nat) : List Nat :=
  let st := List.foldl shaCompress shaInit (chunksOf64 (sha256Pad msg))
  ([st.a, st.b, st.c, st.d, st.e, st.f, st.g, st.h].map wordBytes).flatten

/-- One lowercase hexadecimal digit. -/
def hexLowerDigit (n : Nat) : Char :=
  if n < 10 then Char.ofNat (48 + n) else Char.ofNat (87 + n)

/-- Lowercase hex encoding of a byte list (Python `.hexdigest()`). -/
def hexLower (bs : List Nat) : String :=
  ⟨(bs.map fun b => [hexLowerDigit (b / 16 % 16), hexLowerDigit (b % 16)]).flatten⟩

/-- HMAC-SHA256 (RFC 2104, block size 64), returning the lowercase hex
digest — the model of `hmac.new(key, msg, hashlib.sha256).hexdigest()`. -/
def hmacSha256Hex (key msg : List Nat) : String :=
  let key := if 64 < key.length then sha256 key else key
  let key := key ++ List.replicate (64 - key.length) 0
  let ipad := key.map fun b => b ^^^ 54
  let opad := key.map fun b => b ^^^ 92
  hexLower (sha256 (opad ++ sha256 (ipad ++ msg)))

/-! ## The signer (`BinanceClient._sign`, client.py lines 62-74)

The source mutates the dictionary it receives and returns that same
dictionary; the pure translation maps the dictionary value before to the
dictionary value after.  `int(time.time() * 1000)` is passed in explicitly
as `nowMs`. -/

/-- `BinanceClient._sign`: inject `timestamp`, compute the HMAC-SHA256
signature of the url-encoded parameters, then inject `signature`. -/
def sign (apiSecret : String) (nowMs : Nat) (params : ParamDict) : ParamDict :=
  let params := dictSet params "timestamp" (.vInt nowMs)
  let queryString := urlencode params
  let signature := hmacSha256Hex (utf8Bytes apiSecret) (utf8Bytes queryString)
  dictSet params "signature" (.vStr signature)

/-! ## Response classification (`BinanceClient._request`, client.py 132-151) -/

/-- Look a key up in a JSON mapping's entry list. -/
def jsonLookup (entries : List (String × Json)) (k : String) : Option Json :=
  (List.find? (fun kv => kv.1 == k) entries).map (fun kv => kv.2)

/-- Python `x < 0` on a JSON value: defined on numbers (and `bool`, a
subtype of `int` with `False = 0`, `True = 1`), a `TypeError` otherwise. -/
def pyLtZero : Json → Except Err Bool
  | .num q => .ok (decide (q < 0))
  | .bool _ => .ok false
  | _ => .error .typeError

/-- Python `data.get(k, dflt)`: defined on mappings, an `AttributeError`
otherwise. -/
def pyDictGetD (data : Json) (k : String) (dflt : Json) : Except Err Json :=
  match data with
  | .obj entries => .ok ((jsonLookup entries k).getD dflt)
  | _ => .error .attributeError

/-- The error condition of client.py line 144,
`resp.status_code >= 400 or (isinstance(data, dict) and "code" in data and data["code"] < 0)`,
with Python's left-to-right short-circuit evaluation. -/
def errorCond (status : Nat) (data : Json) : Except Err Bool :=
  if 400 ≤ status then .ok true
  else
    match data with
    | .obj entries =>
      match jsonLookup entries "code" with
      | some v => pyLtZero v
      | none => .ok false
    | _ => .ok false

/-- Client.py lines 144-151: classify a parsed JSON body.  On the error
condition, raise `BinanceAPIError(resp.status_code, data.get("code",
resp.status_code), data.get("msg", resp.text[:200]))`; otherwise return the
body as the successful result. -/
def classify (status : Nat) (data : Json) (text : String) : Except Err Json := do
  let cond ← errorCond status data
  if cond then
    let code ← pyDictGetD data "code" (.num status)
    let msg ← pyDictGetD data "msg" (.str (pyTake text 200))
    .error (.binanceApiError status code msg)
  else
    .ok data

/-- An HTTP response as the transport sees it: status code, raw text, and
the result of `resp.json()` (`none` when the body is not valid JSON). -/
structure Resp where
  status : Nat
  text : String
  json : Option Json

/-- Client.py lines 136-151: parse the body; on a JSON parse failure run
`resp.raise_for_status()` (which raises exactly for statuses 400-599) and
then `return {}`; on success classify the parsed body. -/
def handleResponse (r : Resp) : Except Err Json :=
  match r.json with
  | none =>
    if 400 ≤ r.status ∧ r.status < 600 then .error (.httpError r.status)
    else .ok (.obj [])
  | some data => classify r.status data r.text

/-! ## The retry loop (`BinanceClient._request`, client.py 95-130) -/

/-- `MAX_RETRIES` (client.py line 18). -/
def MAX_RETRIES : Nat := 3

/-- The outcome of one network attempt: a response, a
`requests.exceptions.ConnectionError`, a `requests.exceptions.Timeout`, or
any other exception (which the `try` does not catch). -/
inductive AttemptOutcome : Type where
  | success (r : Resp) : AttemptOutcome
  | connError (id : Nat) : AttemptOutcome
  | timeout (id : Nat) : AttemptOutcome
  | other (e : Err) : AttemptOutcome

/-- Whether an attempt outcome is a transient fault (caught and retried). -/
def AttemptOutcome.isTransient : AttemptOutcome → Bool
  | .connError _ => true
  | .timeout _ => true
  | _ => false

/-- The exception a transient outcome stores into `lastExc`. -/
def AttemptOutcome.exc : AttemptOutcome → Err
  | .connError id => .connectionError id
  | .timeout id => .timeoutError id
  | _ => .otherError 0

/-- The observable trace of the retry loop: its result (the response the
loop `break`s with, or the exception it raises), the number of network
attempts made, and the sleeps performed between attempts (in seconds). -/
structure RetryTrace where
  result : Except Err Resp
  attempts : Nat
  sleeps : List Nat

/-- The loop body of client.py lines 96-130, from attempt number `attempt`
with `fuel` loop iterations remaining.  `outcomes i` is what the network
does on attempt `i`.  Each transient fault is stored in `lastExc` and, when
`attempt < MAX_RETRIES`, followed by `time.sleep(1 * attempt)`; a
non-transient exception propagates at once; when the loop completes without
a `break`, the `for`-`else` re-raises `lastExc` (which is always set by
then, so the `.getD` default is never observed). -/
def retryGo (outcomes : Nat → AttemptOutcome) (attempt : Nat) (lastExc : Option Err)
    (made : Nat) (sleeps : List Nat) : Nat → RetryTrace
  | 0 => ⟨.error (lastExc.getD (.otherError 0)), made, sleeps⟩
  | fuel + 1 =>
    match outcomes attempt with
    | .success r => ⟨.ok r, made + 1, sleeps⟩
    | .connError id =>
      let sleeps := if attempt < MAX_RETRIES then sleeps ++ [1 * attempt] else sleeps
      retryGo outcomes (attempt + 1) (some (.connectionError id)) (made + 1) sleeps fuel
    | .timeout id =>
      let sleeps := if attempt < MAX_RETRIES then sleeps ++ [1 * attempt] else sleeps
      retryGo outcomes (attempt + 1) (some (.timeoutError id)) (made + 1) sleeps fuel
    | .other e => ⟨.error e, made + 1, sleeps⟩

/-- `for attempt in range(1, MAX_RETRIES + 1)` with the `for`-`else`
re-raise: the whole retry loop of client.py lines 95-130. -/
def retryRequest (outcomes : Nat → AttemptOutcome) : RetryTrace :=
  retryGo outcomes 1 none 0 [] MAX_RETRIES

/-- Client.py lines 95-151 composed: run the retry loop, then parse and
classify the response it broke out with. -/
def requestPipeline (outcomes : Nat → AttemptOutcome) : Except Err Json × Nat × List Nat :=
  let t := retryRequest outcomes
  match t.result with
  | .error e => (.error e, t.attempts, t.sleeps)
  | .ok resp => (handleResponse resp, t.attempts, t.sleeps)

/-! ## The order service (`placeOrder`, orders.py lines 20-65) -/

/-- `ORDER_ENDPOINT` (orders.py line 17). -/
def ORDER_ENDPOINT : String := "/fapi/v1/order"

/-- One call to `BinanceClient.get`/`post` as `placeOrder` issues it:
method, path, the caller-built parameter mapping (before signing, which
happens inside the client), and the `signed` flag. -/
structure Request where
  method : String
  path : String
  params : ParamDict
  signed : Bool

/-- A validated price as a parameter value (`params["price"] = price`). -/
def priceVal : Option Rat → PyVal
  | none => .vNone
  | some p => .vNum p

/-- The validation phase of `placeOrder` (orders.py lines 33-37), in the
source's fixed order: symbol, side, orderType, quantity, price.  The first
failure propagates. -/
def validateAll (symbol side orderType : String) (quantity : PyVal)
    (price : Option Rat) : Except Err (String × String × String × Rat × Option Rat) := do
  let symbol ← validateSymbol symbol
  let side ← validateSide side
  let orderType ← validateOrderType orderType
  let quantity ← validateQuantity quantity
  let price ← validatePrice price orderType
  pure (symbol, side, orderType, quantity, price)

/-- `placeOrder` (orders.py lines 20-65).  `net` is the network behaviour
behind `client.post`; the second component of the result is the list of
network calls actually issued, so that "no network call happens" is
directly observable.  On validation success the source builds
`{symbol, side, type, quantity}`, appends `price` and `timeInForce="GTC"`
exactly when the order type is `LIMIT`, and issues one signed POST to
`ORDER_ENDPOINT`, returning the client's result unchanged. -/
def placeOrder (net : Request → Except Err Json) (symbol side orderType : String)
    (quantity : PyVal) (price : Option Rat) : Except Err Json × List Request :=
  match validateAll symbol side orderType quantity price with
  | .error e => (.error e, [])
  | .ok (symbol, side, orderType, quantity, price) =>
    let params : ParamDict :=
      [("symbol", .vStr symbol), ("side", .vStr side),
       ("type", .vStr orderType), ("quantity", .vNum quantity)]
    let params :=
      if orderType = "LIMIT" then
        params ++ [("price", priceVal price), ("timeInForce", .vStr "GTC")]
      else params
    let req : Request := ⟨"POST", ORDER_ENDPOINT, params, true⟩
    (net req, [req])

/-! ## Heap model for the parameter-dictionary copy (client.py lines 83-89)

`_request` executes `params = dict(params or {})` and then passes the copy
to `_sign`, which mutates it in place.  To state that the caller's mapping
is untouched, dictionaries live in an explicit heap (a list of dictionary
values indexed by address) and mutation is heap update. -/

/-- A heap of parameter dictionaries; an address is an index. -/
abbrev Heap : Type := List ParamDict

/-- Client.py lines 83-89: copy the caller's dictionary at address `a` to a
fresh address and, for signed requests, let `_sign` mutate the copy in
place (`params["timestamp"] = ...` and `params["signature"] = ...`).
Returns the new heap and the address of the dictionary the request will
use. -/
def requestSetup (apiSecret : String) (nowMs : Nat) (signed : Bool)
    (h : Heap) (a : Nat) : Heap × Nat :=
  let copied := h.getD a []
  let h := h ++ [copied]
  let na := h.length - 1
  (if signed then h.set na (sign apiSecret nowMs copied) else h, na)

/-! ## Theorems: the claims -/

/-- **C5** — For every raw symbol string, `validateSymbol` fails with a
ValidationError whenever the trimmed, upper-cased symbol is empty, contains
a non-alphabetic character, does not end with the literal suffix `"USDT"`,
or has length < 5 after normalization; otherwise it returns the trimmed,
upper-cased symbol. -/
theorem validateSymbol_spec (s : String) :
    ((pyUpper (pyStrip s)).data = [] ∨ ¬(pyUpper (pyStrip s)).data.all Char.isAlpha = true ∨
      pyEndsWith (pyUpper (pyStrip s)) "USDT" = false ∨ (pyUpper (pyStrip s)).data.length < 5 →
      ∃ e, validateSymbol s = .error e) ∧
    ((pyUpper (pyStrip s)).data ≠ [] ∧ (pyUpper (pyStrip s)).data.all Char.isAlpha = true ∧
      pyEndsWith (pyUpper (pyStrip s)) "USDT" = true ∧ 5 ≤ (pyUpper (pyStrip s)).data.length →
      validateSymbol s = .ok (pyUpper (pyStrip s))) := by
  unfold validateSymbol
  by_cases hs : s = ""
  · subst hs
    refine ⟨fun _ => ⟨.symbolEmpty, by simp⟩, fun h => ?_⟩
    exact absurd rfl h.1
  · simp only [hs, if_false]
    constructor
    · intro h
      have hcases : pyIsAlpha (pyUpper (pyStrip s)) = false ∨
          (pyIsAlpha (pyUpper (pyStrip s)) = true ∧
            (pyEndsWith (pyUpper (pyStrip s)) "USDT" = false ∨
              (pyUpper (pyStrip s)).data.length < 5)) := by
        rcases h with h | h | h | h
        · left
          simp [pyIsAlpha, List.isEmpty_iff, h]
        · left
          simp only [Bool.not_eq_true] at h
          simp [pyIsAlpha, h]
        · by_cases ha : pyIsAlpha (pyUpper (pyStrip s)) = true
          · exact .inr ⟨ha, .inl h⟩
          · left
            simpa using ha
        · by_cases ha : pyIsAlpha (pyUpper (pyStrip s)) = true
          · exact .inr ⟨ha, .inr h⟩
          · left
            simpa using ha
      rcases hcases with ha | ⟨ha, he | hl⟩
      · exact ⟨.symbolNotAlpha (pyUpper (pyStrip s)), by simp [ha]⟩
      · exact ⟨.symbolNotUsdt (pyUpper (pyStrip s)), by simp [ha, he]⟩
      · by_cases he : pyEndsWith (pyUpper (pyStrip s)) "USDT" = true
        · have hl' : (pyUpper (pyStrip s)).length < 5 := hl
          exact ⟨.symbolTooShort (pyUpper (pyStrip s)), by simp [ha, he, hl']⟩
        · simp only [Bool.not_eq_true] at he
          exact ⟨.symbolNotUsdt (pyUpper (pyStrip s)), by simp [ha, he]⟩
    · rintro ⟨h1, h2, h3, h4⟩
      have ha : pyIsAlpha (pyUpper (pyStrip s)) = true := by
        unfold pyIsAlpha
        simp [h2, List.isEmpty_iff, h1]
      have h4' : 5 ≤ (pyUpper (pyStrip s)).length := h4
      simp [ha, h3, Nat.not_lt.mpr h4']

/-- Witness for C5: a failing and a succeeding run at concrete inputs. -/
theorem validateSymbol_spec_witness :
    (∃ e, validateSymbol "ETHBTC" = .error e) ∧
    validateSymbol " btcusdt " = .ok "BTCUSDT" := by
  constructor
  · exact (validateSymbol_spec "ETHBTC").1 (by right; right; left; decide)
  · exact (validateSymbol_spec " btcusdt ").2 (by refine ⟨by decide, by decide, by decide, by decide⟩)

/-- **C6** — `validatePrice` raises a ValidationError iff the order type is
`LIMIT` and the price is absent or not strictly positive (the
"not convertible" disjunct of the claim is vacuous here because the
argument is already typed `float | None`); for a `MARKET` order it never
fails and any supplied price is discarded: the validated price is `None`
for every supplied price, so the price cannot affect the outcome. -/
theorem validatePrice_spec (price : Option Rat) (orderType : String) :
    ((∃ e, validatePrice price orderType = .error e) ↔
      (orderType = "LIMIT" ∧ (price = none ∨ ∃ p, price = some p ∧ p ≤ 0))) ∧
    validatePrice price "MARKET" = .ok none := by
  constructor
  · unfold validatePrice
    by_cases ho : orderType = "LIMIT"
    · simp only [ho, if_true]
      cases price with
      | none => simp
      | some p =>
        by_cases hp : p ≤ 0
        · simp [hp]
        · simp [hp]
    · simp [ho]
  · unfold validatePrice
    simp

/-- **C10** — the ApiError branch is total only for mapping bodies: a
non-mapping JSON body (e.g. an array) with HTTP status ≥ 400 makes
`_request` raise an unhandled `AttributeError` from `data.get`, instead of
a typed ApiError; with status < 400 the non-mapping body is returned as-is
as the success result. -/
theorem classify_nonMapping_total_only_for_mappings (status : Nat) (data : Json)
    (text : String) (h : data.isObj = false) :
    (400 ≤ status → classify status data text = .error .attributeError) ∧
    (status < 400 → classify status data text = .ok data) := by
  constructor
  · intro hst
    cases data with
    | obj entries => simp [Json.isObj] at h
    | null => simp [classify, errorCond, hst, pyDictGetD, Bind.bind, Except.bind]
    | bool b => simp [classify, errorCond, hst, pyDictGetD, Bind.bind, Except.bind]
    | num q => simp [classify, errorCond, hst, pyDictGetD, Bind.bind, Except.bind]
    | str s => simp [classify, errorCond, hst, pyDictGetD, Bind.bind, Except.bind]
    | arr elems => simp [classify, errorCond, hst, pyDictGetD, Bind.bind, Except.bind]
  · intro hst
    have hst' : ¬ 400 ≤ status := by omega
    cases data with
    | obj entries => simp [Json.isObj] at h
    | null => simp [classify, errorCond, hst', Bind.bind, Except.bind]
    | bool b => simp [classify, errorCond, hst', Bind.bind, Except.bind]
    | num q => simp [classify, errorCond, hst', Bind.bind, Except.bind]
    | str s => simp [classify, errorCond, hst', Bind.bind, Except.bind]
    | arr elems => simp [classify, errorCond, hst', Bind.bind, Except.bind]

/-- Witness for C10 at a concrete array body. -/
theorem classify_nonMapping_total_only_for_mappings_witness :
    classify 400 (.arr []) "t" = .error .attributeError ∧
    classify 200 (.arr []) "t" = .ok (.arr []) :=
  ⟨(classify_nonMapping_total_only_for_mappings 400 (.arr []) "t" rfl).1 (by omega),
   (classify_nonMapping_total_only_for_mappings 200 (.arr []) "t" rfl).2 (by omega)⟩

/-- **C1, counterexample** — the claim says a body that fails to parse as
JSON never yields a successful result, for every HTTP status including 2xx.
But on a 2xx status `resp.raise_for_status()` raises nothing and the source
then executes `return {}`: a 200 response with a non-JSON body yields the
empty mapping as a *successful* result. -/
theorem handleResponse_nonJson_2xx_returns_success :
    handleResponse ⟨200, "not json", none⟩ = .ok (.obj []) := rfl

/-- **C1, amended** — for a response whose body fails to parse as JSON:
when the HTTP status is an error status (400-599), `raise_for_status()`
surfaces it as an error and no successful result is returned; when the
status is outside 400-599 (in particular 2xx), the empty mapping is
returned as a successful result. -/
theorem handleResponse_nonJson_error_statuses (r : Resp) (hj : r.json = none) :
    (400 ≤ r.status ∧ r.status < 600 → handleResponse r = .error (.httpError r.status)) ∧
    (r.status < 400 ∨ 600 ≤ r.status → handleResponse r = .ok (.obj [])) := by
  constructor
  · intro h
    simp [handleResponse, hj, h]
  · intro h
    have h' : ¬(400 ≤ r.status ∧ r.status < 600) := by omega
    simp [handleResponse, hj, h']

/-- Witness for C1 at a concrete 404 response with a non-JSON body. -/
theorem handleResponse_nonJson_error_statuses_witness :
    handleResponse ⟨404, "oops", none⟩ = .error (.httpError 404) :=
  (handleResponse_nonJson_error_statuses ⟨404, "oops", none⟩ rfl).1 (by decide)

/-- **C3, counterexample** — the claim quantifies over *every* successfully
parsed JSON body, but for a body that is not a mapping (here a JSON array)
with HTTP status 400 the source crashes in `data.get` with an
`AttributeError`: it neither raises the predicted
`ApiError{httpStatus=400, apiCode=400, message="body"}` nor returns the
body. -/
theorem classify_array_400_attributeError :
    classify 400 (.arr []) "body" = .error .attributeError ∧
    classify 400 (.arr []) "body" ≠
      .error (.binanceApiError 400 (.num 400) (.str "body")) := by
  constructor
  · rfl
  · intro h
    rw [show classify 400 (.arr []) "body" = .error .attributeError from rfl] at h
    exact Err.noConfusion (Except.error.inj h)

/-- **C3, amended** — restricted to mapping bodies (and, when the status is
below 400 so that the source actually compares the `code` field with `0`,
to `code` fields that are numeric or boolean): if the HTTP status is ≥ 400
or the mapping contains a `code` field with negative numeric value,
classification raises `BinanceAPIError` with httpStatus = the HTTP status,
apiCode = the body's `code` field (or the HTTP status if absent) and
message = the body's `msg` field (or the first 200 characters of the raw
body if absent); otherwise the body is returned as-is. -/
theorem classify_mapping_spec (status : Nat) (entries : List (String × Json))
    (text : String)
    (hcode : status < 400 → ∀ v, jsonLookup entries "code" = some v →
      (∃ q, v = .num q) ∨ (∃ b, v = .bool b)) :
    (400 ≤ status ∨ (∃ q, jsonLookup entries "code" = some (.num q) ∧ q < 0) →
      classify status (.obj entries) text =
        .error (.binanceApiError status ((jsonLookup entries "code").getD (.num status))
          ((jsonLookup entries "msg").getD (.str (pyTake text 200))))) ∧
    (status < 400 ∧ ¬(∃ q, jsonLookup entries "code" = some (.num q) ∧ q < 0) →
      classify status (.obj entries) text = .ok (.obj entries)) := by
  constructor
  · intro h
    by_cases hst : 400 ≤ status
    · simp [classify, errorCond, hst, pyDictGetD, Bind.bind, Except.bind]
    · have hlt : status < 400 := by omega
      rcases h with h | ⟨q, hq, hneg⟩
      · omega
      · simp [classify, errorCond, hst, hq, pyLtZero, hneg, pyDictGetD,
          Bind.bind, Except.bind]
  · rintro ⟨hlt, hnoneg⟩
    have hst : ¬ 400 ≤ status := by omega
    cases hv : jsonLookup entries "code" with
    | none => simp [classify, errorCond, hst, hv, Bind.bind, Except.bind]
    | some v =>
      rcases hcode hlt v hv with ⟨q, rfl⟩ | ⟨b, rfl⟩
      · have hq : ¬ q < 0 := fun hneg => hnoneg ⟨q, hv, hneg⟩
        simp [classify, errorCond, hst, hv, pyLtZero, hq, Bind.bind, Except.bind]
      · simp [classify, errorCond, hst, hv, pyLtZero, Bind.bind, Except.bind]

/-- Witness for C3 at the spec's concrete example: body
`{"code": -1021, "msg": "Timestamp outside window"}` with HTTP 400. -/
theorem classify_mapping_spec_witness :
    classify 400
        (.obj [("code", .num (-1021)), ("msg", .str "Timestamp outside window")]) "raw"
      = .error (.binanceApiError 400 (.num (-1021)) (.str "Timestamp outside window")) := by
  have h := (classify_mapping_spec 400
    [("code", .num (-1021)), ("msg", .str "Timestamp outside window")] "raw"
    (fun hlt => absurd hlt (by omega))).1 (.inl (by omega))
  simpa using h

/-- A transient outcome is a connection error or a timeout. -/
theorem isTransient_shape (o : AttemptOutcome) (h : o.isTransient = true) :
    (∃ id, o = .connError id) ∨ (∃ id, o = .timeout id) := by
  cases o with
  | connError id => exact .inl ⟨id, rfl⟩
  | timeout id => exact .inr ⟨id, rfl⟩
  | success r => simp [AttemptOutcome.isTransient] at h
  | other e => simp [AttemptOutcome.isTransient] at h

/-- **C2** — for every logical request the retry loop makes at most
`MAX_RETRIES = 3` network attempts; only connection errors and timeouts are
retried (any other exception propagates at once, after exactly the attempts
made so far); the sleeps between attempts are `1 * 1, 1 * 2, ...` seconds,
linear in the attempt number; the loop succeeds with the response of the
first successful attempt within the budget; and if all 3 attempts fail
transiently it raises the exception observed on the last attempt. -/
theorem retryRequest_spec (outcomes : Nat → AttemptOutcome) :
    (retryRequest outcomes).attempts ≤ MAX_RETRIES ∧
    (∀ k r, 1 ≤ k → k ≤ MAX_RETRIES →
      (∀ i, 1 ≤ i → i < k → (outcomes i).isTransient = true) →
      outcomes k = .success r →
      retryRequest outcomes =
        ⟨.ok r, k, (List.range (k - 1)).map fun i => 1 * (i + 1)⟩) ∧
    (∀ k e, 1 ≤ k → k ≤ MAX_RETRIES →
      (∀ i, 1 ≤ i → i < k → (outcomes i).isTransient = true) →
      outcomes k = .other e →
      retryRequest outcomes =
        ⟨.error e, k, (List.range (k - 1)).map fun i => 1 * (i + 1)⟩) ∧
    ((∀ i, 1 ≤ i → i ≤ MAX_RETRIES → (outcomes i).isTransient = true) →
      retryRequest outcomes =
        ⟨.error (outcomes MAX_RETRIES).exc, MAX_RETRIES, [1 * 1, 1 * 2]⟩) := by
  refine ⟨?_, ?_, ?_, ?_⟩
  · rcases h1 : outcomes 1 with r1 | i1 | i1 | e1 <;>
      rcases h2 : outcomes 2 with r2 | i2 | i2 | e2 <;>
      rcases h3 : outcomes 3 with r3 | i3 | i3 | e3 <;>
      simp [retryRequest, retryGo, MAX_RETRIES, h1, h2, h3]
  · intro k r hk1 hk3 htrans hsucc
    rw [MAX_RETRIES] at hk3
    interval_cases k
    · simp [retryRequest, retryGo, MAX_RETRIES, hsucc]
    · rcases isTransient_shape _ (htrans 1 (by omega) (by omega)) with ⟨id, hid⟩ | ⟨id, hid⟩ <;>
        simp [retryRequest, retryGo, MAX_RETRIES, hid, hsucc] <;> decide
    · rcases isTransient_shape _ (htrans 1 (by omega) (by omega)) with ⟨id1, hid1⟩ | ⟨id1, hid1⟩ <;>
        rcases isTransient_shape _ (htrans 2 (by omega) (by omega)) with ⟨id2, hid2⟩ | ⟨id2, hid2⟩ <;>
        simp [retryRequest, retryGo, MAX_RETRIES, hid1, hid2, hsucc] <;> decide
  · intro k e hk1 hk3 htrans hother
    rw [MAX_RETRIES] at hk3
    interval_cases k
    · simp [retryRequest, retryGo, MAX_RETRIES, hother]
    · rcases isTransient_shape _ (htrans 1 (by omega) (by omega)) with ⟨id, hid⟩ | ⟨id, hid⟩ <;>
        simp [retryRequest, retryGo, MAX_RETRIES, hid, hother] <;> decide
    · rcases isTransient_shape _ (htrans 1 (by omega) (by omega)) with ⟨id1, hid1⟩ | ⟨id1, hid1⟩ <;>
        rcases isTransient_shape _ (htrans 2 (by omega) (by omega)) with ⟨id2, hid2⟩ | ⟨id2, hid2⟩ <;>
        simp [retryRequest, retryGo, MAX_RETRIES, hid1, hid2, hother] <;> decide
  · intro htrans
    rcases isTransient_shape _ (htrans 1 (by omega) (by decide)) with ⟨id1, hid1⟩ | ⟨id1, hid1⟩ <;>
      rcases isTransient_shape _ (htrans 2 (by omega) (by decide)) with ⟨id2, hid2⟩ | ⟨id2, hid2⟩ <;>
      rcases isTransient_shape _ (htrans 3 (by omega) (by decide)) with ⟨id3, hid3⟩ | ⟨id3, hid3⟩ <;>
      simp [retryRequest, retryGo, MAX_RETRIES, hid1, hid2, hid3, AttemptOutcome.exc]

/-- Witness for C2: with every attempt a connection error, the loop makes
exactly 3 attempts, sleeps 1 s then 2 s, and re-raises the third attempt's
connection error. -/
theorem retryRequest_spec_witness :
    retryRequest (fun i => .connError i) =
      ⟨.error (.connectionError 3), 3, [1, 2]⟩ := by
  have h := (retryRequest_spec (fun i => .connError i)).2.2.2 (fun i _ _ => rfl)
  simpa [AttemptOutcome.exc, MAX_RETRIES] using h

/-- Appending a fresh key to a mapping that does not contain it makes the
lookup of that key find the appended value. -/
theorem findSnd_append_of_not_any (d : ParamDict) (k : String) (v : PyVal)
    (h : (List.any d fun kv => kv.1 == k) = false) :
    (List.find? (fun kv => kv.1 == k) (d ++ [(k, v)])).map (fun kv => kv.2) = some v := by
  induction d with
  | nil => simp [List.find?]
  | cons a rest ih =>
    simp only [List.any_cons, Bool.or_eq_false_iff] at h
    rw [List.cons_append, List.find?_cons_of_neg]
    · exact ih h.2
    · simp [h.1]

/-- Updating an existing key in place makes the lookup of that key find the
updated value. -/
theorem findSnd_map_of_any (d : ParamDict) (k : String) (v : PyVal)
    (h : (List.any d fun kv => kv.1 == k) = true) :
    (List.find? (fun kv => kv.1 == k)
      (List.map (fun kv => if kv.1 == k then (k, v) else kv) d)).map (fun kv => kv.2) =
      some v := by
  induction d with
  | nil => simp at h
  | cons a rest ih =>
    by_cases ha : (a.1 == k) = true
    · rw [List.map_cons, if_pos ha, List.find?_cons_of_pos]
      · simp
      · simp
    · simp only [List.any_cons, ha, Bool.false_or] at h
      rw [List.map_cons, if_neg ha, List.find?_cons_of_neg]
      · exact ih h
      · exact ha

/-- Looking up a key immediately after assigning it yields the assigned
value. -/
theorem dictFind_dictSet_self (d : ParamDict) (k : String) (v : PyVal) :
    dictFind (dictSet d k v) k = some v := by
  unfold dictSet dictFind
  by_cases h : (List.any d fun kv => kv.1 == k) = true
  · rw [if_pos h]
    exact findSnd_map_of_any d k v h
  · rw [if_neg h]
    refine findSnd_append_of_not_any d k v ?_
    simp only [Bool.not_eq_true] at h
    exact h

/-- **C4** — signing with a fixed injected timestamp is deterministic: two
runs of `_sign` on an identical parameter mapping (same keys, values and
insertion order) and the same timestamp yield the identical result; and the
produced `signature` entry is exactly the lowercase hex HMAC-SHA256, keyed
by the secret's UTF-8 bytes, of the UTF-8 bytes of the URL-encoded query
string of all the parameters with the injected `timestamp` (insertion order
preserved) and without the `signature` entry itself. -/
theorem sign_deterministic_hmac (apiSecret : String) (params1 params2 : ParamDict)
    (ts1 ts2 : Nat) (hp : params1 = params2) (ht : ts1 = ts2) :
    sign apiSecret ts1 params1 = sign apiSecret ts2 params2 ∧
    dictFind (sign apiSecret ts1 params1) "signature" =
      some (.vStr (hmacSha256Hex (utf8Bytes apiSecret)
        (utf8Bytes (urlencode (dictSet params1 "timestamp" (.vInt ts1)))))) := by
  subst hp ht
  refine ⟨rfl, ?_⟩
  unfold sign
  exact dictFind_dictSet_self _ _ _

/-- Witness for C4 at a concrete mapping, secret and timestamp. -/
theorem sign_deterministic_hmac_witness :
    sign "secret" 1700000000000 [("symbol", .vStr "BTCUSDT")] =
      sign "secret" 1700000000000 [("symbol", .vStr "BTCUSDT")] ∧
    dictFind (sign "secret" 1700000000000 [("symbol", .vStr "BTCUSDT")]) "signature" =
      some (.vStr (hmacSha256Hex (utf8Bytes "secret")
        (utf8Bytes (urlencode (dictSet [("symbol", .vStr "BTCUSDT")] "timestamp"
          (.vInt 1700000000000)))))) :=
  sign_deterministic_hmac "secret" _ _ _ _ rfl rfl

/-- Updating the freshly appended slot of a heap does not change any
earlier slot. -/
theorem heap_set_fresh_frame (h : Heap) (a : Nat) (ha : a < h.length)
    (c x : ParamDict) :
    (List.set (h ++ [c]) ((h ++ [c]).length - 1) x).getD a [] = h.getD a [] := by
  have hne : (h ++ [c]).length - 1 ≠ a := by
    simp only [List.length_append, List.length_singleton]
    omega
  rw [List.getD_eq_getElem?_getD, List.getD_eq_getElem?_getD,
    List.getElem?_set_ne hne, List.getElem?_append_left ha]

/-- **C9** — the caller's parameter mapping is unchanged by a request:
`_request` copies the mapping (`params = dict(params or {})`) to a fresh
address before signing, and `_sign` mutates only that copy, so after the
setup phase the heap still holds the caller's original mapping at its
address (for signed and unsigned requests alike), and the dictionary the
request uses lives at a different address. -/
theorem requestSetup_preserves_caller_dict (apiSecret : String) (nowMs : Nat)
    (signed : Bool) (h : Heap) (a : Nat) (ha : a < h.length) :
    (requestSetup apiSecret nowMs signed h a).1.getD a [] = h.getD a [] ∧
    (requestSetup apiSecret nowMs signed h a).2 ≠ a := by
  constructor
  · cases signed with
    | false =>
      show (h ++ [h.getD a []]).getD a [] = h.getD a []
      rw [List.getD_eq_getElem?_getD, List.getD_eq_getElem?_getD,
        List.getElem?_append_left ha]
    | true =>
      exact heap_set_fresh_frame h a ha _ _
  · show (h ++ [h.getD a []]).length - 1 ≠ a
    simp only [List.length_append, List.length_singleton]
    omega

/-- Witness for C9 at a concrete heap with one caller dictionary. -/
theorem requestSetup_preserves_caller_dict_witness :
    (requestSetup "secret" 1700000000000 true [[("symbol", .vStr "BTCUSDT")]] 0).1.getD 0 []
        = [[("symbol", .vStr "BTCUSDT")]].getD 0 [] ∧
    (requestSetup "secret" 1700000000000 true [[("symbol", .vStr "BTCUSDT")]] 0).2 ≠ 0 :=
  requestSetup_preserves_caller_dict "secret" 1700000000000 true
    [[("symbol", .vStr "BTCUSDT")]] 0 (by decide)

/-- **C7** — for every order that passes validation, `placeOrder` issues
exactly one signed POST to `/fapi/v1/order` whose parameters are exactly
`{symbol, side, type, quantity}` for a MARKET order (no `price`, no
`timeInForce` key) and exactly those plus `{price, timeInForce = "GTC"}`
for a LIMIT order; and the spec's concrete scenario holds:
`symbol="btcusdt", side="buy", orderType="market", quantity="0.01"`
normalizes to `(BTCUSDT, BUY, MARKET, 0.01, None)` and posts only the four
keys, returning the network's result unchanged. -/
theorem placeOrder_params_spec (net : Request → Except Err Json) :
    (∀ symbol side orderType quantity price s sd q p,
      validateAll symbol side orderType quantity price = .ok (s, sd, "MARKET", q, p) →
      placeOrder net symbol side orderType quantity price =
        (net ⟨"POST", ORDER_ENDPOINT,
            [("symbol", .vStr s), ("side", .vStr sd),
             ("type", .vStr "MARKET"), ("quantity", .vNum q)], true⟩,
         [⟨"POST", ORDER_ENDPOINT,
            [("symbol", .vStr s), ("side", .vStr sd),
             ("type", .vStr "MARKET"), ("quantity", .vNum q)], true⟩])) ∧
    (∀ symbol side orderType quantity price s sd q p,
      validateAll symbol side orderType quantity price = .ok (s, sd, "LIMIT", q, p) →
      placeOrder net symbol side orderType quantity price =
        (net ⟨"POST", ORDER_ENDPOINT,
            [("symbol", .vStr s), ("side", .vStr sd),
             ("type", .vStr "LIMIT"), ("quantity", .vNum q),
             ("price", priceVal p), ("timeInForce", .vStr "GTC")], true⟩,
         [⟨"POST", ORDER_ENDPOINT,
            [("symbol", .vStr s), ("side", .vStr sd),
             ("type", .vStr "LIMIT"), ("quantity", .vNum q),
             ("price", priceVal p), ("timeInForce", .vStr "GTC")], true⟩])) ∧
    (validateAll "btcusdt" "buy" "market" (.vStr "0.01") none =
      .ok ("BTCUSDT", "BUY", "MARKET", (1 : Rat)/100, none) ∧
    placeOrder net "btcusdt" "buy" "market" (.vStr "0.01") none =
      (net ⟨"POST", ORDER_ENDPOINT,
          [("symbol", .vStr "BTCUSDT"), ("side", .vStr "BUY"),
           ("type", .vStr "MARKET"), ("quantity", .vNum ((1 : Rat)/100))], true⟩,
       [⟨"POST", ORDER_ENDPOINT,
          [("symbol", .vStr "BTCUSDT"), ("side", .vStr "BUY"),
           ("type", .vStr "MARKET"), ("quantity", .vNum ((1 : Rat)/100))], true⟩])) := by
  have hall : validateAll "btcusdt" "buy" "market" (.vStr "0.01") none
      = .ok ("BTCUSDT", "BUY", "MARKET", (1 : Rat)/100, none) := by
    have hparse : parseUnsignedDecimal "0.01".data = some ((1 : Rat)/100) := by
      simp [parseUnsignedDecimal, natOfDigits, List.dropWhile, List.takeWhile, Char.isDigit]
      norm_num
    have hfl : pyFloat (.vStr "0.01") = parseUnsignedDecimal "0.01".data := rfl
    have hq : validateQuantity (.vStr "0.01") = .ok ((1 : Rat)/100) := by
      rw [validateQuantity, hfl, hparse]
      norm_num
    have hs : validateSymbol "btcusdt" = .ok "BTCUSDT" := rfl
    have hd : validateSide "buy" = .ok "BUY" := rfl
    have ht : validateOrderType "market" = .ok "MARKET" := rfl
    have hp : validatePrice none "MARKET" = .ok none := rfl
    simp [validateAll, hs, hd, ht, hq, hp, Bind.bind, Except.bind, Pure.pure, Except.pure]
  refine ⟨?_, ?_, hall, ?_⟩
  · intro symbol side orderType quantity price s sd q p hv
    simp [placeOrder, hv]
  · intro symbol side orderType quantity price s sd q p hv
    simp [placeOrder, hv]
  · simp [placeOrder, hall]

/-- Witness for C7: the concrete scenario request, with the market-order
branch of the theorem applied to the concrete normalization it provides. -/
theorem placeOrder_params_spec_witness :
    placeOrder (fun _ => .ok .null) "btcusdt" "buy" "market" (.vStr "0.01") none =
      (.ok .null,
       [⟨"POST", ORDER_ENDPOINT,
          [("symbol", .vStr "BTCUSDT"), ("side", .vStr "BUY"),
           ("type", .vStr "MARKET"), ("quantity", .vNum ((1 : Rat)/100))], true⟩]) :=
  (placeOrder_params_spec (fun _ => .ok .null)).1 "btcusdt" "buy" "market"
    (.vStr "0.01") none "BTCUSDT" "BUY" ((1 : Rat)/100) none
    (placeOrder_params_spec (fun _ => .ok .null)).2.2.1

/-- **C8** — whenever any validator fails, `placeOrder` propagates that
very ValidationError untouched and issues zero network calls: the result is
`(.error e, [])` with an empty call list, and is moreover independent of
the network behaviour altogether. -/
theorem placeOrder_validation_blocks_network (net net2 : Request → Except Err Json)
    (symbol side orderType : String) (quantity : PyVal) (price : Option Rat) (e : Err)
    (h : validateAll symbol side orderType quantity price = .error e) :
    placeOrder net symbol side orderType quantity price = (.error e, []) ∧
    placeOrder net symbol side orderType quantity price =
      placeOrder net2 symbol side orderType quantity price := by
  constructor
  · simp [placeOrder, h]
  · simp [placeOrder, h]

/-- Witness for C8 at the spec's concrete scenario `orderType="LIMIT",
price=None`, under two different network behaviours. -/
theorem placeOrder_validation_blocks_network_witness :
    placeOrder (fun _ => .ok .null) "BTCUSDT" "BUY" "LIMIT" (.vNum 1) none =
      (.error .priceRequired, []) ∧
    placeOrder (fun _ => .ok .null) "BTCUSDT" "BUY" "LIMIT" (.vNum 1) none =
      placeOrder (fun _ => .error .typeError) "BTCUSDT" "BUY" "LIMIT" (.vNum 1) none :=
  placeOrder_validation_blocks_network (fun _ => .ok .null) (fun _ => .error .typeError)
    "BTCUSDT" "BUY" "LIMIT" (.vNum 1) none .priceRequired rfl
